import Mathlib

/-!
Verification development for the `foundrydeploy` orchestration engine
(`src/foundrydeploy/deployer.py`).

The Python module is shallowly embedded: the `Deployer` object becomes a
structure over association lists (Python `dict`s preserve insertion order and
overwrite on assignment, which `dinsert` reproduces); exceptions become the
`Err` inductive; the external command-line toolchain becomes an oracle
`world : String → Int × String` giving each command line its exit code and
captured stdout; `sys.exit(1)` after the failure checkpoint becomes the
`Err.exit1` outcome carrying the snapshot that was saved to the cache.
Every operation also reports the list of external command lines it executed,
in order, so that "the runner was never invoked" is a statement about that log.

String operations from Python (`startswith`, slicing, `in`, `splitlines`)
are modelled on the underlying character lists so that everything reduces.
-/

namespace Foundrydeploy

/-! ## String helpers (models of the Python `str` operations used) -/

/-- Python `s.startswith(pre)`. -/
def strStartsWith (s pre : String) : Bool := pre.data.isPrefixOf s.data

/-- Python `s[n:]`. -/
def strDrop (n : Nat) (s : String) : String := String.mk (s.data.drop n)

/-- Python `s[-n:]`: the last `n` characters (the whole string when shorter). -/
def lastChars (n : Nat) (s : String) : String :=
  String.mk ((s.data.reverse.take n).reverse)

/-- `pat` occurs as a contiguous sublist of `s` (Python `pat in s`). -/
def listContainsSub (pat : List Char) : List Char → Bool
  | [] => pat.isPrefixOf ([] : List Char)
  | c :: rest => pat.isPrefixOf (c :: rest) || listContainsSub pat rest

/-- Python `pat in s` on strings. -/
def strContainsSub (s pat : String) : Bool := listContainsSub pat.data s.data

/-- Split a character list at every occurrence of `c` (separators dropped). -/
def splitOnChar (c : Char) : List Char → List (List Char)
  | [] => [[]]
  | x :: rest =>
    let r := splitOnChar c rest
    if x = c then [] :: r
    else
      match r with
      | [] => [[x]]
      | h :: t => (x :: h) :: t

/-- Python `s.splitlines()`, modelled as splitting on the newline character. -/
def splitLines (s : String) : List String :=
  (splitOnChar '\n' s.data).map String.mk

/-! ## Dictionaries as ordered association lists

Python `dict`: lookup finds the (unique) binding; assignment overwrites an
existing binding in place or appends a new one. -/

/-- Python `m[k]` / `k in m` (as an `Option`). -/
def dfind? {α : Type} (m : List (String × α)) (k : String) : Option α :=
  match m with
  | [] => none
  | (k', v) :: rest => if k' = k then some v else dfind? rest k

/-- Python `m[k] = v`: overwrite in place, or append when absent. -/
def dinsert {α : Type} (m : List (String × α)) (k : String) (v : α) :
    List (String × α) :=
  match m with
  | [] => [(k, v)]
  | (k', v') :: rest =>
    if k' = k then (k', v) :: rest else (k', v') :: dinsert rest k v

/-! ## Data model -/

/-- The three registry mappings that `Deployer.save` pickles and
`load_from_cache` restores: `contracts` (label → locator),
`addresses` (label → deployed address), and `contract_signatures`
(locator → function name → canonical signature). -/
structure Snapshot where
  contracts : List (String × String)
  addresses : List (String × String)
  contract_signatures : List (String × List (String × String))

/-- Outcomes that abort a run, embedding the Python exceptions:
`keyError` (`dict` subscript misses), `attrError` (attribute never assigned),
`valueError` (explicit `raise ValueError`), `indexError` (`_args[0]` on an
empty list), and `exit1` for the fail-fast path of `Deployer.run`, which
saves the current registry snapshot to the cache and terminates the
process with status 1. -/
inductive Err where
  | keyError (key : String)
  | attrError (attr : String)
  | valueError (msg : String)
  | indexError
  | exit1 (saved : Snapshot)

/-- The `Deployer` object's fields. `is_legacy` is an `Option` because
`__init__` assigns the attribute (to the string `"--legacy"`) only when the
`is_legacy` argument is truthy; otherwise the attribute does not exist and
reading it raises `AttributeError`. The signer collaborator is abstracted to
the two strings it supplies (`signer.pub()` and `signer.get()`). -/
structure Deployer where
  rpc : String
  contracts : List (String × String)
  addresses : List (String × String)
  contract_signatures : List (String × List (String × String))
  signerPub : String
  signerGet : String
  debug : Bool
  is_legacy : Option String
  cache_path : String

/-- The registry state that a cache save would persist. -/
def Deployer.snapshot (d : Deployer) : Snapshot :=
  ⟨d.contracts, d.addresses, d.contract_signatures⟩

/-- Result of running a fragment of the engine: the external command lines
executed (in order) plus either a value or the aborting outcome. -/
structure RunResult (α : Type) where
  log : List String
  res : Except Err α

/-! ## Operations (one per method of `Deployer`) -/

/-- `Deployer._handle_arg`: a token starting with `"$"` is an address
reference (strip the marker, look the rest up in `addresses`; a miss is a
Python `KeyError`); a token starting with `"#PUB"` is replaced by the
signer's public key; anything else is a literal. -/
def Deployer.handle_arg (d : Deployer) (arg : String) : Except Err String :=
  if strStartsWith arg "$" then
    match dfind? d.addresses (strDrop 1 arg) with
    | some a => .ok a
    | none => .error (.keyError (strDrop 1 arg))
  else if strStartsWith arg "#PUB" then .ok d.signerPub
  else .ok arg

/-- `Deployer.run`: execute `cmd` through the external toolchain. On a
non-zero exit code the Python code calls `self.save()` (checkpointing the
registry) and then `exit(1)`; this becomes the `exit1` outcome carrying the
snapshot. The command line is logged in either case. -/
def Deployer.run (world : String → Int × String) (d : Deployer)
    (cmd : String) : RunResult String :=
  ⟨[cmd],
    if (world cmd).1 = 0 then .ok (world cmd).2
    else .error (.exit1 d.snapshot)⟩

/-- The address-parsing scrape in `Deployer.deploy`: the first output line
containing `"Deployed to: "` yields its last 42 characters; no such line
means the address stays `""` and a `ValueError` follows. -/
def parseAddress (result : String) : Option String :=
  (splitLines result).findSome? fun line =>
    if strContainsSub line "Deployed to: " then some (lastChars 42 line)
    else none

/-- The constructor-argument stringification loop of `Deployer.deploy`:
`const += f"--constructor-args \x7bself._handle_arg(arg)\x7d "` for each
argument, propagating the first resolution error (left to right). -/
def Deployer.constArgs (d : Deployer) : List String → Except Err String
  | [] => .ok ""
  | a :: rest =>
    match d.handle_arg a with
    | .error e => .error e
    | .ok h =>
      match d.constArgs rest with
      | .error e => .error e
      | .ok r => .ok ("--constructor-args " ++ h ++ " " ++ r)

/-- The `forge create` command line built by `Deployer.deploy`. -/
def deployCmd (d : Deployer) (legacy contract_path const : String) : String :=
  "forge create " ++ d.rpc ++ " " ++ legacy ++ " " ++ d.signerGet ++ " "
    ++ contract_path ++ " " ++ const

/-- `Deployer.deploy`: return the cached address when one exists (no command
runs); otherwise look up the locator, resolve the constructor arguments,
read `self.is_legacy` (an `AttributeError` when the engine was built with
`is_legacy=False`), run `forge create`, scrape the deployed address from the
output, and store it in the registry. -/
def Deployer.deploy (world : String → Int × String) (d : Deployer)
    (contract_label : String) (args : List String) :
    RunResult (String × Deployer) :=
  match dfind? d.addresses contract_label with
  | some addr => ⟨[], .ok (addr, d)⟩
  | none =>
    match dfind? d.contracts contract_label with
    | none => ⟨[], .error (.keyError contract_label)⟩
    | some contract_path =>
      match d.constArgs args with
      | .error e => ⟨[], .error e⟩
      | .ok const =>
        match d.is_legacy with
        | none => ⟨[], .error (.attrError "is_legacy")⟩
        | some legacy =>
          match (Deployer.run world d (deployCmd d legacy contract_path const)).res with
          | .error e => ⟨[deployCmd d legacy contract_path const], .error e⟩
          | .ok result =>
            match parseAddress result with
            | none =>
              ⟨[deployCmd d legacy contract_path const],
                .error (.valueError "address not sucessfully parsed")⟩
            | some address =>
              ⟨[deployCmd d legacy contract_path const],
                .ok (address,
                  { d with addresses := dinsert d.addresses contract_label address })⟩

/-- The quoting applied to the signature in `Deployer.send`:
`_args[0] = '"' + signature + '"'`. -/
def quoteSig (sig : String) : String := String.mk ('"' :: sig.data ++ ['"'])

/-- The call-argument stringification loop of `Deployer.send`:
`args += f" \x7bself._handle_arg(arg)\x7d "` for each argument. -/
def Deployer.sendArgsStr (d : Deployer) : List String → Except Err String
  | [] => .ok ""
  | a :: rest =>
    match d.handle_arg a with
    | .error e => .error e
    | .ok h =>
      match d.sendArgsStr rest with
      | .error e => .error e
      | .ok r => .ok (" " ++ h ++ " " ++ r)

/-- The `cast send` command line built by `Deployer.send`. -/
def sendCmd (d : Deployer) (address legacy argsStr : String) : String :=
  "cast send " ++ address ++ " " ++ d.rpc ++ " " ++ legacy ++ " "
    ++ d.signerGet ++ " " ++ argsStr

/-- `Deployer.send`: look up the label's locator (`KeyError` on a miss) and
the locator's signature table (`KeyError` on a miss); when the function name
is absent from the table the code executes
`raise ValueError(f"... \x7bself.contract_path\x7d")`, but `contract_path`
is a local variable, not an attribute, so building that message raises
`AttributeError` — modelled as `attrError "contract_path"`. Otherwise the
first argument is destructively replaced by the quoted signature, all
arguments are resolved, `self.is_legacy` is read, and `cast send` runs.
On success the result carries the mutated argument list (the in-place
update of the caller's `_args`) and the unchanged deployer. -/
def Deployer.send (world : String → Int × String) (d : Deployer)
    (contract_label : String) (address : String) (_args : List String) :
    RunResult (List String × Deployer) :=
  match dfind? d.contracts contract_label with
  | none => ⟨[], .error (.keyError contract_label)⟩
  | some contract_path =>
    match _args with
    | [] => ⟨[], .error .indexError⟩
    | function_name :: rest =>
      match dfind? d.contract_signatures contract_path with
      | none => ⟨[], .error (.keyError contract_path)⟩
      | some table =>
        match dfind? table function_name with
        | none => ⟨[], .error (.attrError "contract_path")⟩
        | some sig =>
          match d.sendArgsStr (quoteSig sig :: rest) with
          | .error e => ⟨[], .error e⟩
          | .ok argsStr =>
            match d.is_legacy with
            | none => ⟨[], .error (.attrError "is_legacy")⟩
            | some legacy =>
              match (Deployer.run world d (sendCmd d address legacy argsStr)).res with
              | .error e => ⟨[sendCmd d address legacy argsStr], .error e⟩
              | .ok _ =>
                ⟨[sendCmd d address legacy argsStr],
                  .ok (quoteSig sig :: rest, d)⟩

/-! ## The action-script interpreter (`Deployer.path`) -/

/-- The four action codes `DEPLOY` / `SEND` / `SKIP_START` / `SKIP_END`
with their payloads. -/
inductive Action where
  | deploy (label : String) (args : List String)
  | send (label : String) (args : List String)
  | skip_start
  | skip_end

/-- Interpreter state: the deployer plus the `skipping` flag of
`Deployer.path`. -/
structure PathState where
  d : Deployer
  skipping : Bool

/-- One iteration of the `for` loop in `Deployer.path`. `SKIP_START` sets
`skipping` (and then the `if skipping: continue` consumes the instruction);
`SKIP_END` clears it and continues. A skipped `Deploy`/`Send` is consumed
with no effect. An active `Send` first evaluates
`self.addresses[label]` (a `KeyError` when unresolved — before `send` and
before any command); an active `Deploy` dispatches to `deploy`. -/
def pathStep (world : String → Int × String) (st : PathState) (a : Action) :
    RunResult PathState :=
  match a with
  | .skip_start => ⟨[], .ok { st with skipping := true }⟩
  | .skip_end => ⟨[], .ok { st with skipping := false }⟩
  | .deploy label args =>
    if st.skipping then ⟨[], .ok st⟩
    else
      match st.d.deploy world label args with
      | ⟨lg, .error e⟩ => ⟨lg, .error e⟩
      | ⟨lg, .ok p⟩ => ⟨lg, .ok { st with d := p.2 }⟩
  | .send label args =>
    if st.skipping then ⟨[], .ok st⟩
    else
      match dfind? st.d.addresses label with
      | none => ⟨[], .error (.keyError label)⟩
      | some addr =>
        match st.d.send world label addr args with
        | ⟨lg, .error e⟩ => ⟨lg, .error e⟩
        | ⟨lg, .ok p⟩ => ⟨lg, .ok { st with d := p.2 }⟩

/-- The whole loop of `Deployer.path`, threading state and concatenating
command logs, aborting at the first error. -/
def pathRun (world : String → Int × String) (st : PathState) :
    List Action → RunResult PathState
  | [] => ⟨[], .ok st⟩
  | a :: rest =>
    match pathStep world st a with
    | ⟨lg, .error e⟩ => ⟨lg, .error e⟩
    | ⟨lg, .ok st'⟩ =>
      match pathRun world st' rest with
      | ⟨lg2, res2⟩ => ⟨lg ++ lg2, res2⟩

/-- `Deployer.path`: run the script from the `Active` state
(`skipping = False`), then `self.save()` — the success value carries the
snapshot written to the cache at the end of the run. -/
def Deployer.path (world : String → Int × String) (d : Deployer)
    (script : List Action) : RunResult (Snapshot × Deployer) :=
  match pathRun world ⟨d, false⟩ script with
  | ⟨lg, .error e⟩ => ⟨lg, .error e⟩
  | ⟨lg, .ok st⟩ => ⟨lg, .ok (st.d.snapshot, st.d)⟩

/-- `Deployer.load_from_cache`: when the cache file exists (pickle
round-trips the object), replace the three registry mappings with the cached
ones; a missing file means a fresh start. -/
def Deployer.load_from_cache (d : Deployer) (cached : Option Snapshot) :
    Deployer :=
  match cached with
  | some s =>
    { d with contracts := s.contracts, addresses := s.addresses,
             contract_signatures := s.contract_signatures }
  | none => d

/-! ## Registration (`load_contract_signatures` / `add_contracts`)

Reading `out/<file>.sol/<Name>.json` and JSON-decoding it are external I/O;
the embedding takes the already-decoded ABI array as input. -/

/-- One decoded ABI entry: its `"type"`, `"name"`, and the `"type"` of each
element of `"inputs"`, in declaration order. -/
structure AbiEntry where
  type_ : String
  name : String
  inputs : List String

/-- `"\x7b\x7d({\x7d)".format(func_name, inputs)` with `inputs` the
comma-join of the input types. -/
def buildSignature (e : AbiEntry) : String :=
  e.name ++ "(" ++ String.intercalate "," e.inputs ++ ")"

/-- One iteration of the ABI loop in `load_contract_signatures`: for an
entry of type `"function"`, ensure a table exists for `contract_path`
(creating an empty one only then) and set `table[func_name] = signature`;
other entries are skipped. -/
def sigStep (contract_path : String) (d : Deployer) (e : AbiEntry) :
    Deployer :=
  if e.type_ = "function" then
    let table := (dfind? d.contract_signatures contract_path).getD []
    let table' := dinsert table e.name (buildSignature e)
    { d with contract_signatures :=
        dinsert d.contract_signatures contract_path table' }
  else d

/-- `Deployer.load_contract_signatures`, given the decoded ABI of the
artifact for `contract_path`. Note the loop updates into any pre-existing
table for the locator; it does not replace the table wholesale. The
`contract_label` parameter is unused, as in the source. -/
def Deployer.load_contract_signatures (d : Deployer) (_contract_label : String)
    (contract_path : String) (abi : List AbiEntry) : Deployer :=
  abi.foldl (sigStep contract_path) d

/-- One element of the contract list given to `add_contracts`: a
`(label, locator)` pair or a `(label, locator, address)` triple. -/
structure ContractSpec where
  label : String
  locator : String
  address : Option String

/-- `Deployer.add_contracts`: for each spec, a non-empty locator registers
the locator under the label and loads the artifact's signatures (`arts`
models reading the build artifact for a locator); a present third field
stores the address. -/
def Deployer.add_contracts (arts : String → List AbiEntry) (d : Deployer)
    (contracts : List ContractSpec) : Deployer :=
  contracts.foldl
    (fun d c =>
      let d1 :=
        if c.locator ≠ "" then
          Deployer.load_contract_signatures
            { d with contracts := dinsert d.contracts c.label c.locator }
            c.label c.locator (arts c.locator)
        else d
      match c.address with
      | some a => { d1 with addresses := dinsert d1.addresses c.label a }
      | none => d1)
    d

/-- The signature table stored for a locator (empty when none is stored). -/
def sigsFor (d : Deployer) (contract_path : String) :
    List (String × String) :=
  (dfind? d.contract_signatures contract_path).getD []

/-- Accumulator step mirroring `sigStep`, restricted to the binding of one
function name `n`. -/
def lastSigStep (n : String) (acc : Option String) (e : AbiEntry) :
    Option String :=
  if e.type_ = "function" ∧ e.name = n then some (buildSignature e) else acc

/-- The signature the registration loop leaves for function name `n`: the
one built from the last `"function"` entry of the ABI named `n`, if any. -/
def lastFuncSig (abi : List AbiEntry) (n : String) : Option String :=
  abi.foldl (lastSigStep n) none

/-! ## Concrete data used by the witnesses -/

/-- A 42-character deployed address, as `forge create` prints it. -/
def sampleAddr : String := "0xaaaaaaaaaaaaaaaaaaaaaaaaaaaaaaaaaaaaaaaa"

/-- An engine with two registered contracts, no cached addresses, a
signature table for locator `"PA"`, and legacy mode configured. -/
def D0 : Deployer where
  rpc := "R"
  contracts := [("A", "PA"), ("B", "PB")]
  addresses := []
  contract_signatures := [("PA", [("transfer", "transfer(address,uint256)")])]
  signerPub := "PUBKEY"
  signerGet := "S"
  debug := false
  is_legacy := some "LG"
  cache_path := "cache/deploy_00000000"

/-- An external toolchain where deploying `"PB"` fails and every other
command succeeds, deploys reporting `sampleAddr`. -/
def world0 : String → Int × String := fun cmd =>
  if cmd = "forge create R LG S PB " then (1, "boom")
  else (0, "Deployed to: " ++ sampleAddr)

/-- `D0` after a successful deployment of `"A"`. -/
def D1 : Deployer := { D0 with addresses := [("A", sampleAddr)] }

/-- `D0` constructed with `is_legacy=False`: the `is_legacy` attribute was
never assigned. -/
def DNL : Deployer := { D0 with is_legacy := none }

/-- An engine holding a stale signature table for locator `"PC"` (say,
restored from the cache before re-registration). -/
def staleD : Deployer :=
  { D0 with contract_signatures := [("PC", [("old", "old()")])] }

/-- A freshly compiled ABI for `"PC"` with a single function `transfer`
(and no function `old`). -/
def freshAbi : List AbiEntry :=
  [⟨"function", "transfer", ["address", "uint256"]⟩]

/-- Artifact store serving `freshAbi` for every locator. -/
def arts0 : String → List AbiEntry := fun _ => freshAbi

/-! ## Dictionary lemmas -/

@[simp] theorem dfind?_dinsert_self {α : Type} (m : List (String × α))
    (k : String) (v : α) : dfind? (dinsert m k v) k = some v := by
  induction m with
  | nil => simp [dinsert, dfind?]
  | cons p rest ih =>
    obtain ⟨k', v'⟩ := p
    by_cases h : k' = k <;> simp [dinsert, dfind?, h, ih]

theorem dfind?_dinsert_ne {α : Type} (m : List (String × α))
    (k k' : String) (v : α) (h : k' ≠ k) :
    dfind? (dinsert m k v) k' = dfind? m k' := by
  induction m with
  | nil => simp [dinsert, dfind?, Ne.symm h]
  | cons p rest ih =>
    obtain ⟨k₀, v₀⟩ := p
    by_cases h₀ : k₀ = k
    · subst h₀
      simp [dinsert, dfind?, Ne.symm h]
    · simp only [dinsert, if_neg h₀, dfind?]
      by_cases h₁ : k₀ = k' <;> simp [h₁, ih]

/-! ## Inversion lemmas for `deploy` -/

theorem handle_arg_error (d : Deployer) (arg : String) (e : Err)
    (h : d.handle_arg arg = .error e) : ∃ k, e = .keyError k := by
  unfold Deployer.handle_arg at h
  split at h
  · split at h
    · exact absurd h (by simp)
    · exact ⟨strDrop 1 arg, by injection h with he; exact he.symm⟩
  · split at h <;> exact absurd h (by simp)

theorem constArgs_error (d : Deployer) (args : List String) (e : Err)
    (h : d.constArgs args = .error e) : ∃ k, e = .keyError k := by
  induction args with
  | nil => exact absurd h (by simp [Deployer.constArgs])
  | cons a rest ih =>
    unfold Deployer.constArgs at h
    split at h
    · rename_i e' heq
      injection h with he
      subst he
      exact handle_arg_error d a _ heq
    · split at h
      · rename_i e' heq
        injection h with he
        subst he
        exact ih heq
      · exact absurd h (by simp)

/-- A successful `deploy` leaves the returned address stored under the
label, and it ran exactly one command unless the address was cached. -/
theorem deploy_ok_inv (world : String → Int × String) (d : Deployer)
    (L : String) (args : List String) (log : List String) (addr : String)
    (d' : Deployer)
    (h : Deployer.deploy world d L args = ⟨log, .ok (addr, d')⟩) :
    dfind? d'.addresses L = some addr ∧
      (dfind? d.addresses L = none → ∃ cmd, log = [cmd]) := by
  unfold Deployer.deploy at h
  split at h
  · rename_i a heq
    simp only [RunResult.mk.injEq, Except.ok.injEq, Prod.mk.injEq] at h
    obtain ⟨hlog, ha, hd⟩ := h
    subst ha
    subst hd
    exact ⟨heq, fun hn => absurd heq (by simp [hn])⟩
  · rename_i heq0
    split at h
    · exact absurd h (by simp)
    · rename_i cp heqc
      split at h
      · exact absurd h (by simp)
      · rename_i const heqconst
        split at h
        · exact absurd h (by simp)
        · rename_i legacy heql
          split at h
          · exact absurd h (by simp)
          · rename_i result heqr
            split at h
            · exact absurd h (by simp)
            · rename_i address heqa
              simp only [RunResult.mk.injEq, Except.ok.injEq, Prod.mk.injEq] at h
              obtain ⟨hlog, ha, hd⟩ := h
              subst ha
              subst hd
              exact ⟨by simp, fun _ => ⟨_, hlog.symm⟩⟩

/-- A `deploy` that ends in the fail-fast checkpoint saved exactly the
registry state it started from, and had no cached address for the label. -/
theorem deploy_exit1_inv (world : String → Int × String) (d : Deployer)
    (L : String) (args : List String) (log : List String) (snap : Snapshot)
    (h : Deployer.deploy world d L args = ⟨log, .error (.exit1 snap)⟩) :
    snap = d.snapshot ∧ dfind? d.addresses L = none := by
  unfold Deployer.deploy at h
  split at h
  · exact absurd h (by simp)
  · rename_i heq0
    refine ⟨?_, heq0⟩
    split at h
    · exact absurd h (by simp)
    · rename_i cp heqc
      split at h
      · rename_i e heqconst
        injection h with hlog hres
        injection hres with he
        obtain ⟨k, hk⟩ := constArgs_error d args e heqconst
        rw [hk] at he
        exact absurd he (by simp)
      · rename_i const heqconst
        split at h
        · injection h with hlog hres
          injection hres with he
          exact absurd he (by simp)
        · rename_i legacy heql
          split at h
          · rename_i e heqr
            unfold Deployer.run at heqr
            simp only [] at heqr
            split at heqr
            · exact absurd heqr (by simp)
            · injection h with hlog hres
              injection hres with he
              injection heqr with he'
              rw [he] at he'
              injection he' with hs
              exact hs.symm
          · split at h
            · injection h with hlog hres
              injection hres with he
              exact absurd he (by simp)
            · exact absurd h (by simp)

/-! ## Claims -/

/-- C1 — Idempotent deploy: when the registry already holds a resolved
address for the label, `deploy` invokes no external command and returns
exactly the stored address (and the unchanged registry); and after any
successful `deploy`, deploying the same label again invokes no command and
returns the same address, the first call having executed exactly one
external command when the address was not already cached — so running
`Deploy(L, args)` twice executes the deploy command exactly once. -/
theorem deploy_idempotent (world : String → Int × String) (d : Deployer)
    (L : String) (args : List String) :
    (∀ a, dfind? d.addresses L = some a →
        Deployer.deploy world d L args = ⟨[], .ok (a, d)⟩) ∧
    (∀ log addr d',
        Deployer.deploy world d L args = ⟨log, .ok (addr, d')⟩ →
        Deployer.deploy world d' L args = ⟨[], .ok (addr, d')⟩ ∧
          (dfind? d.addresses L = none → ∃ cmd, log = [cmd])) := by
  have cached : ∀ (d0 : Deployer) (a : String),
      dfind? d0.addresses L = some a →
      Deployer.deploy world d0 L args = ⟨[], .ok (a, d0)⟩ := by
    intro d0 a h
    unfold Deployer.deploy
    rw [h]
  refine ⟨cached d, ?_⟩
  intro log addr d' h
  obtain ⟨h1, h2⟩ := deploy_ok_inv world d L args log addr d' h
  exact ⟨cached d' addr h1, h2⟩

theorem deploy_idempotent_witness :
    Deployer.deploy world0 D1 "A" [] = ⟨[], .ok (sampleAddr, D1)⟩ :=
  ((deploy_idempotent world0 D0 "A" []).2
    ["forge create R LG S PA "] sampleAddr D1 rfl).1

/-- C2 — Skip correctness: while `skipping` is set, `Deploy` and `Send`
instructions are consumed with no external command and no change to the
interpreter state (hence none of the three registry mappings), and a second
`SkipStart` has no additional effect; a `SkipEnd` at any time merely clears
the flag (leaving the state `Active`, a no-op when it already was). -/
theorem skip_correct (world : String → Int × String) (st : PathState)
    (L : String) (args : List String) :
    (st.skipping = true →
      pathStep world st (.deploy L args) = ⟨[], .ok st⟩ ∧
      pathStep world st (.send L args) = ⟨[], .ok st⟩ ∧
      pathStep world st .skip_start = ⟨[], .ok st⟩) ∧
    pathStep world st .skip_end = ⟨[], .ok { st with skipping := false }⟩ := by
  obtain ⟨d, sk⟩ := st
  refine ⟨fun h => ?_, rfl⟩
  cases h
  exact ⟨rfl, rfl, rfl⟩

theorem skip_correct_witness :
    pathStep world0 ⟨D0, true⟩ (.deploy "A" []) = ⟨[], .ok ⟨D0, true⟩⟩ :=
  ((skip_correct world0 ⟨D0, true⟩ "A" []).1 rfl).1

/-- C3 — Send precondition: an active `Send` on a label with no resolved
address fails (the `KeyError` that `self.addresses[label]` raises inside
`path`, the code's `UnresolvedAddress`) before any external command is
invoked; it never dispatches to `deploy`. -/
theorem send_precondition (world : String → Int × String) (st : PathState)
    (L : String) (args : List String)
    (hact : st.skipping = false)
    (hmiss : dfind? st.d.addresses L = none) :
    pathStep world st (.send L args) = ⟨[], .error (.keyError L)⟩ := by
  obtain ⟨d, sk⟩ := st
  cases hact
  simp only [pathStep, Bool.false_eq_true, if_false]
  rw [hmiss]

theorem send_precondition_witness :
    pathStep world0 ⟨D0, false⟩ (.send "Z" []) = ⟨[], .error (.keyError "Z")⟩ :=
  send_precondition world0 ⟨D0, false⟩ "Z" [] rfl rfl

/-- C4 — Checkpoint-on-failure: on a script `[Deploy(A,...), Deploy(B,...)]`
where A's external command succeeds and B's exits non-zero, the run
terminates through the fail-fast path after saving the registry to the
cache, and the saved snapshot resolves A's address while B stays
unresolved. -/
theorem checkpoint_on_failure (world : String → Int × String) (d : Deployer)
    (A B : String) (argsA argsB : List String) (logA : List String)
    (addrA : String) (d1 : Deployer) (logB : List String) (snap : Snapshot)
    (h1 : Deployer.deploy world d A argsA = ⟨logA, .ok (addrA, d1)⟩)
    (h2 : Deployer.deploy world d1 B argsB = ⟨logB, .error (.exit1 snap)⟩) :
    Deployer.path world d [.deploy A argsA, .deploy B argsB]
        = ⟨logA ++ logB, .error (.exit1 snap)⟩ ∧
      dfind? snap.addresses A = some addrA ∧
      dfind? snap.addresses B = none := by
  have hA := (deploy_ok_inv world d A argsA logA addrA d1 h1).1
  obtain ⟨hsnap, hBnone⟩ := deploy_exit1_inv world d1 B argsB logB snap h2
  have s1 : pathStep world ⟨d, false⟩ (.deploy A argsA)
      = ⟨logA, .ok ⟨d1, false⟩⟩ := by
    simp [pathStep, h1]
  have s2 : pathStep world ⟨d1, false⟩ (.deploy B argsB)
      = ⟨logB, .error (.exit1 snap)⟩ := by
    simp [pathStep, h2]
  refine ⟨?_, ?_, ?_⟩
  · simp [Deployer.path, pathRun, s1, s2]
  · rw [hsnap]
    exact hA
  · rw [hsnap]
    exact hBnone

theorem checkpoint_on_failure_witness :
    Deployer.path world0 D0 [.deploy "A" [], .deploy "B" []]
        = ⟨["forge create R LG S PA ", "forge create R LG S PB "],
            .error (.exit1 D1.snapshot)⟩ ∧
      dfind? D1.snapshot.addresses "A" = some sampleAddr ∧
      dfind? D1.snapshot.addresses "B" = none :=
  checkpoint_on_failure world0 D0 "A" "B" [] []
    ["forge create R LG S PA "] sampleAddr D1
    ["forge create R LG S PB "] D1.snapshot rfl rfl

/-- The quoted signature starts with a double-quote character, so the
argument resolver treats it as a literal (`"$"` and `"#PUB"` are not
prefixes of it). -/
theorem handle_arg_quoted (d : Deployer) (sig : String) :
    d.handle_arg (quoteSig sig) = .ok (quoteSig sig) := by
  have h1 : strStartsWith (quoteSig sig) "$" = false := by
    have hc : ('$' == '"') = false := rfl
    simp [strStartsWith, quoteSig, List.isPrefixOf, hc]
  have h2 : strStartsWith (quoteSig sig) "#PUB" = false := by
    have hc : ('#' == '"') = false := rfl
    simp [strStartsWith, quoteSig, List.isPrefixOf, hc]
  simp [Deployer.handle_arg, h1, h2]

/-- C5 — Signature substitution: when the first element of the argument
list names a function in the locator's signature table, the send command
embeds, after the fixed flags, first the canonical signature wrapped in
double quotes and then the resolved remaining arguments. -/
theorem signature_substitution (world : String → Int × String) (d : Deployer)
    (L addr fname : String) (rest : List String) (cp : String)
    (table : List (String × String)) (sig restStr legacy : String)
    (hc : dfind? d.contracts L = some cp)
    (ht : dfind? d.contract_signatures cp = some table)
    (hs : dfind? table fname = some sig)
    (hr : d.sendArgsStr rest = .ok restStr)
    (hl : d.is_legacy = some legacy) :
    d.sendArgsStr (quoteSig sig :: rest)
        = .ok (" " ++ quoteSig sig ++ " " ++ restStr) ∧
      (Deployer.send world d L addr (fname :: rest)).log
        = [sendCmd d addr legacy (" " ++ quoteSig sig ++ " " ++ restStr)] := by
  have hstr : d.sendArgsStr (quoteSig sig :: rest)
      = .ok (" " ++ quoteSig sig ++ " " ++ restStr) := by
    unfold Deployer.sendArgsStr
    rw [handle_arg_quoted, hr]
  refine ⟨hstr, ?_⟩
  unfold Deployer.send
  simp only [hc, ht, hs, hstr, hl]
  split <;> rfl

theorem signature_substitution_witness :
    Deployer.sendArgsStr D0 (quoteSig "transfer(address,uint256)" :: ["5"])
        = .ok (" " ++ quoteSig "transfer(address,uint256)" ++ " " ++ " 5 ") ∧
      (Deployer.send world0 D0 "A" "0xd" ["transfer", "5"]).log
        = [sendCmd D0 "0xd" "LG"
            (" " ++ quoteSig "transfer(address,uint256)" ++ " " ++ " 5 ")] :=
  signature_substitution world0 D0 "A" "0xd" "transfer" ["5"] "PA"
    [("transfer", "transfer(address,uint256)")] "transfer(address,uint256)"
    " 5 " "LG" rfl rfl rfl rfl rfl

/-- C6 (code-bug evidence) — looking up a function name absent from the
locator's signature table aborts `send` before any external command, but
through an `AttributeError` (the error message references the nonexistent
attribute `self.contract_path`), not the intended `ValueError`. Evaluated
here on a concrete engine: `D0`'s table for `"PA"` has only `transfer`, and
sending `burn` produces `attrError "contract_path"` with an empty command
log. -/
theorem unknown_function_raises_attrError :
    Deployer.send world0 D0 "A" "0xd" ["burn", "1"]
      = ⟨[], .error (.attrError "contract_path")⟩ := rfl

/-- C7 counterexample — registering a label whose locator already has a
stored signature table does not overwrite that table: after registering
`"PC"` with a fresh ABI containing only `transfer`, the stored table still
maps `old`, a function absent from the fresh ABI, so the table does not
contain exactly the functions of the freshly loaded ABI. -/
theorem register_overwrite_cex :
    dfind?
        (sigsFor (Deployer.add_contracts arts0 staleD [⟨"L", "PC", none⟩])
          "PC") "old"
        = some "old()" ∧
      lastFuncSig freshAbi "old" = none :=
  ⟨rfl, rfl⟩

/-- Lookup view of the registration fold: the table left for `cp` answers
`n` with the last matching function of the ABI, else as before the fold. -/
theorem load_sigs_lookup (cp n : String) (abi : List AbiEntry)
    (d : Deployer) :
    dfind? (sigsFor (abi.foldl (sigStep cp) d) cp) n
      = abi.foldl (lastSigStep n) (dfind? (sigsFor d cp) n) := by
  induction abi generalizing d with
  | nil => rfl
  | cons e rest ih =>
    rw [List.foldl_cons, List.foldl_cons, ih]
    congr 1
    by_cases hf : e.type_ = "function"
    · by_cases hn : e.name = n
      · subst hn
        simp [sigStep, lastSigStep, sigsFor, hf]
      · simp [sigStep, lastSigStep, sigsFor, hf, hn,
          dfind?_dinsert_ne _ _ _ _ (Ne.symm hn)]
    · simp [sigStep, lastSigStep, hf]

/-- The accumulator fold returns the ABI's last matching signature when one
exists, and its initial value otherwise. -/
theorem lastSigStep_foldl (abi : List AbiEntry) (n : String)
    (init : Option String) :
    abi.foldl (lastSigStep n) init
      = match lastFuncSig abi n with
        | some s => some s
        | none => init := by
  induction abi generalizing init with
  | nil => rfl
  | cons e rest ih =>
    unfold lastFuncSig
    rw [List.foldl_cons, List.foldl_cons, ih, ih]
    cases hrest : lastFuncSig rest n with
    | none =>
      by_cases hc : e.type_ = "function" ∧ e.name = n <;>
        simp [lastSigStep, hc]
    | some s => simp

/-- C7 (amended) — registering a label with a non-empty locator merges the
freshly derived signatures into any table already stored for that locator:
every function of the fresh ABI ends up mapped to its canonical
`name(type1,type2,...)` signature (the last ABI entry winning for repeated
names), while prior entries for names not among the fresh ABI's functions
are retained unchanged. -/
theorem register_merges (d : Deployer) (lbl cp : String)
    (abi : List AbiEntry) (n : String) :
    (∀ s, lastFuncSig abi n = some s →
      dfind?
          (sigsFor (Deployer.load_contract_signatures d lbl cp abi) cp) n
        = some s) ∧
    (lastFuncSig abi n = none →
      dfind?
          (sigsFor (Deployer.load_contract_signatures d lbl cp abi) cp) n
        = dfind? (sigsFor d cp) n) := by
  constructor
  · intro s hlast
    unfold Deployer.load_contract_signatures
    rw [load_sigs_lookup, lastSigStep_foldl, hlast]
  · intro hlast
    unfold Deployer.load_contract_signatures
    rw [load_sigs_lookup, lastSigStep_foldl, hlast]

theorem register_merges_witness :
    dfind?
        (sigsFor (Deployer.load_contract_signatures staleD "L" "PC" freshAbi)
          "PC") "transfer"
        = some "transfer(address,uint256)" ∧
      dfind?
          (sigsFor (Deployer.load_contract_signatures staleD "L" "PC" freshAbi)
            "PC") "old"
        = dfind? (sigsFor staleD "PC") "old" :=
  ⟨(register_merges staleD "L" "PC" freshAbi "transfer").1
      "transfer(address,uint256)" rfl,
    (register_merges staleD "L" "PC" freshAbi "old").2 rfl⟩

/-- C8 — Argument resolution: a token starting with the address-reference
marker `"$"` resolves to the stored address of the label obtained by
stripping the marker (failing with the `KeyError` — `UnknownContractLabel`
— when no address is stored); otherwise a token starting with the
public-key marker `"#PUB"` resolves to the signer's public key; any other
token is returned unchanged. -/
theorem handle_arg_spec (d : Deployer) (arg : String) :
    (strStartsWith arg "$" = true →
      (∀ a, dfind? d.addresses (strDrop 1 arg) = some a →
          d.handle_arg arg = .ok a) ∧
      (dfind? d.addresses (strDrop 1 arg) = none →
          d.handle_arg arg = .error (.keyError (strDrop 1 arg)))) ∧
    (strStartsWith arg "$" = false → strStartsWith arg "#PUB" = true →
      d.handle_arg arg = .ok d.signerPub) ∧
    (strStartsWith arg "$" = false → strStartsWith arg "#PUB" = false →
      d.handle_arg arg = .ok arg) := by
  refine ⟨fun h => ⟨fun a ha => ?_, fun ha => ?_⟩,
    fun h1 h2 => ?_, fun h1 h2 => ?_⟩ <;>
    simp [Deployer.handle_arg, *]

theorem handle_arg_spec_witness :
    Deployer.handle_arg D1 "$A" = .ok sampleAddr ∧
      Deployer.handle_arg D0 "#PUB" = .ok "PUBKEY" ∧
      Deployer.handle_arg D0 "lit" = .ok "lit" :=
  ⟨((handle_arg_spec D1 "$A").1 rfl).1 sampleAddr rfl,
    (handle_arg_spec D0 "#PUB").2.1 rfl rfl,
    (handle_arg_spec D0 "lit").2.2 rfl rfl⟩

theorem deploy_no_legacy_aux (world : String → Int × String) (d : Deployer)
    (L : String) (args : List String) (h : d.is_legacy = none)
    (hm : dfind? d.addresses L = none) :
    (Deployer.deploy world d L args).log = [] ∧
    ∃ e, (Deployer.deploy world d L args).res = .error e := by
  cases heq1 : dfind? d.contracts L with
  | none => simp [Deployer.deploy, hm, heq1]
  | some cp =>
    cases heq2 : d.constArgs args with
    | error e => simp [Deployer.deploy, hm, heq1, heq2]
    | ok c => simp [Deployer.deploy, hm, heq1, heq2, h]

theorem send_no_legacy_aux (world : String → Int × String) (d : Deployer)
    (L addrArg : String) (args : List String) (h : d.is_legacy = none) :
    (Deployer.send world d L addrArg args).log = [] ∧
    ∃ e, (Deployer.send world d L addrArg args).res = .error e := by
  cases heq1 : dfind? d.contracts L with
  | none => simp [Deployer.send, heq1]
  | some cp =>
    cases args with
    | nil => simp [Deployer.send, heq1]
    | cons fn rest =>
      cases heq2 : dfind? d.contract_signatures cp with
      | none => simp [Deployer.send, heq1, heq2]
      | some table =>
        cases heq3 : dfind? table fn with
        | none => simp [Deployer.send, heq1, heq2, heq3]
        | some sig =>
          cases heq4 : d.sendArgsStr (quoteSig sig :: rest) with
          | error e => simp [Deployer.send, heq1, heq2, heq3, heq4]
          | ok s => simp [Deployer.send, heq1, heq2, heq3, heq4, h]

/-- C9 — Non-legacy configuration cannot execute commands: when the engine
was constructed with `is_legacy = False` (so the attribute was never
assigned), a `Deploy` with no cached address and every `Send` abort with no
external command executed; when they get as far as building the command
(label registered, arguments resolvable, and for sends the function known),
the failure is precisely the `AttributeError` on `is_legacy`. -/
theorem non_legacy_blocks_commands (world : String → Int × String)
    (d : Deployer) (L addrArg : String) (args : List String)
    (h : d.is_legacy = none) :
    ((dfind? d.addresses L = none →
        (Deployer.deploy world d L args).log = [] ∧
        ∃ e, (Deployer.deploy world d L args).res = .error e) ∧
      ∀ cp const, dfind? d.addresses L = none →
        dfind? d.contracts L = some cp → d.constArgs args = .ok const →
        Deployer.deploy world d L args
          = ⟨[], .error (.attrError "is_legacy")⟩) ∧
    ((Deployer.send world d L addrArg args).log = [] ∧
      (∃ e, (Deployer.send world d L addrArg args).res = .error e) ∧
      ∀ cp fname rest table sig argsStr, args = fname :: rest →
        dfind? d.contracts L = some cp →
        dfind? d.contract_signatures cp = some table →
        dfind? table fname = some sig →
        d.sendArgsStr (quoteSig sig :: rest) = .ok argsStr →
        Deployer.send world d L addrArg args
          = ⟨[], .error (.attrError "is_legacy")⟩) := by
  refine ⟨⟨fun hm => deploy_no_legacy_aux world d L args h hm, ?_⟩,
    (send_no_legacy_aux world d L addrArg args h).1,
    (send_no_legacy_aux world d L addrArg args h).2, ?_⟩
  · intro cp const hm hcq hconst
    simp [Deployer.deploy, hm, hcq, hconst, h]
  · intro cp fname rest table sig argsStr hargs hcq ht hs hstr
    subst hargs
    simp [Deployer.send, hcq, ht, hs, hstr, h]

theorem non_legacy_blocks_commands_witness :
    Deployer.deploy world0 DNL "A" []
      = ⟨[], .error (.attrError "is_legacy")⟩ :=
  ((non_legacy_blocks_commands world0 DNL "A" "0xd" [] rfl).1).2
    "PA" "" rfl rfl rfl

/-- C10 — Send mutates its argument list in place: a successful
`Send(L, fname :: rest)` hands back an argument list whose first element is
the quoted canonical signature (no longer the function name, whose first
character is not a double quote), and re-running the same (mutated) list
presents the quoted signature to the signature lookup — which, the quoted
string not being a table key, now aborts with the unknown-function
outcome. -/
theorem send_mutates_args (world : String → Int × String) (d : Deployer)
    (L addr fname : String) (rest log args' : List String) (d' : Deployer)
    (cp : String) (table : List (String × String)) (sig : String)
    (hc : dfind? d.contracts L = some cp)
    (ht : dfind? d.contract_signatures cp = some table)
    (hs : dfind? table fname = some sig)
    (hq : fname.data.head? ≠ some '"')
    (hok : Deployer.send world d L addr (fname :: rest)
      = ⟨log, .ok (args', d')⟩) :
    args' = quoteSig sig :: rest ∧
      args'.head? ≠ some fname ∧
      d' = d ∧
      (dfind? table (quoteSig sig) = none →
        Deployer.send world d' L addr args'
          = ⟨[], .error (.attrError "contract_path")⟩) := by
  unfold Deployer.send at hok
  simp only [hc, ht, hs] at hok
  split at hok
  · exact absurd hok (by simp)
  · split at hok
    · exact absurd hok (by simp)
    · split at hok
      · exact absurd hok (by simp)
      · simp only [RunResult.mk.injEq, Except.ok.injEq, Prod.mk.injEq] at hok
        obtain ⟨hlog, ha, hd⟩ := hok
        subst ha
        subst hd
        refine ⟨rfl, ?_, rfl, ?_⟩
        · intro hcon
          simp only [List.head?_cons, Option.some.injEq] at hcon
          exact hq (by rw [← hcon]; rfl)
        · intro hmiss
          simp [Deployer.send, hc, ht, hmiss]

theorem send_mutates_args_witness :
    (["\"transfer(address,uint256)\"", "5"] : List String)
        = quoteSig "transfer(address,uint256)" :: ["5"] ∧
      (["\"transfer(address,uint256)\"", "5"] : List String).head?
        ≠ some "transfer" ∧
      D0 = D0 ∧
      (dfind? [("transfer", "transfer(address,uint256)")]
          (quoteSig "transfer(address,uint256)") = none →
        Deployer.send world0 D0 "A" "0xd"
            ["\"transfer(address,uint256)\"", "5"]
          = ⟨[], .error (.attrError "contract_path")⟩) :=
  send_mutates_args world0 D0 "A" "0xd" "transfer" ["5"]
    ["cast send 0xd R LG S  \"transfer(address,uint256)\"  5 "]
    ["\"transfer(address,uint256)\"", "5"] D0 "PA"
    [("transfer", "transfer(address,uint256)")] "transfer(address,uint256)"
    rfl rfl rfl (by decide) rfl

end Foundrydeploy
